import Mathlib

/-!
Verification of `sndl.py`, a sequential-numbered-file downloader.

The development shallowly embeds the program's core: the range-expression
parser (`parse_url`, `get_digit`, `parse_range`), the per-item fetch step
(`get_content`), the reconnect countdown (`do_reconnecting`) and the
sequential fetch loop (`download`).  Strings are modelled as Lean `String`
(lists of characters); the HTTP transport is modelled by an oracle
`env : Nat → ItemBehavior` giving the observable behaviour of the n-th
request of a run; effects (connecting, requesting, opening files, the
countdown, diagnostics) are recorded in an event trace.
-/

set_option maxRecDepth 100000

namespace Sndl

/-- Character class of the bracket regex `[0-9,-]`. -/
def isRangeChar (c : Char) : Bool := c.isDigit || c = ',' || c = '-'

/-- Model of `re.search(r'\[([0-9,-]+)\]', path)`: finds the leftmost
position where a `'['` is followed by a nonempty run of range characters
and then `']'` (the character class contains neither `'['` nor `']'`, so
regex backtracking cannot produce any other match).  Returns the text
before the match, the bracket's inner text, and the text after. -/
def findBracket : List Char → Option (List Char × List Char × List Char)
  | [] => none
  | c :: rest =>
    let inner := rest.takeWhile isRangeChar
    let after := rest.dropWhile isRangeChar
    if c = '[' ∧ inner ≠ [] ∧ after.take 1 = [']'] then
      some ([], inner, after.drop 1)
    else
      match findBracket rest with
      | some (pre, inn, suf) => some (c :: pre, inn, suf)
      | none => none

/-- Model of Python `str.split(sep)` for a one-character separator. -/
def pySplit (sep : Char) : List Char → List (List Char)
  | [] => [[]]
  | c :: rest =>
    if c = sep then [] :: pySplit sep rest
    else
      match pySplit sep rest with
      | t :: ts => (c :: t) :: ts
      | [] => [[c]]

/-- Model of Python `str.strip()`: drop whitespace from both ends. -/
def pyStrip (l : List Char) : List Char :=
  ((l.dropWhile Char.isWhitespace).reverse.dropWhile Char.isWhitespace).reverse

/-- Decimal value of a digit string (how Python `int` reads an all-digit
string). -/
def digitsToNat (l : List Char) : Nat :=
  l.foldl (fun acc c => acc * 10 + (c.toNat - '0'.toNat)) 0

/-- Model of Python `int(s)` on the strings the program can meet as a port
number: optional surrounding whitespace, optional sign, then digits
(`None` models the `ValueError` raised otherwise). -/
def pyInt? (l : List Char) : Option Int :=
  match pyStrip l with
  | '-' :: ds =>
    if ds ≠ [] ∧ ds.all Char.isDigit then some (-(digitsToNat ds : Int)) else none
  | '+' :: ds =>
    if ds ≠ [] ∧ ds.all Char.isDigit then some ((digitsToNat ds : Int)) else none
  | ds =>
    if ds ≠ [] ∧ ds.all Char.isDigit then some ((digitsToNat ds : Int)) else none

/-- Model of `urllib.parse.urlparse` restricted to what `sndl.py` reads
from it: the (lower-cased) scheme, the network location and the path, for
URLs of the shape `scheme://netloc/path[?query][#fragment]` (a URL without
`://` is all path, as in `urlparse`). -/
def urlsplit (url : String) : String × String × String :=
  match go url.data with
  | some (schemePart, rest) =>
    let netloc := rest.takeWhile fun c => ¬(c = '/' ∨ c = '?' ∨ c = '#')
    let rest2 := rest.dropWhile fun c => ¬(c = '/' ∨ c = '?' ∨ c = '#')
    let path := rest2.takeWhile fun c => ¬(c = '?' ∨ c = '#')
    (⟨schemePart.map Char.toLower⟩, ⟨netloc⟩, ⟨path⟩)
  | none =>
    (⟨[]⟩, ⟨[]⟩, ⟨url.data.takeWhile fun c => ¬(c = '?' ∨ c = '#')⟩)
where
  /-- Split at the first occurrence of `"://"`. -/
  go : List Char → Option (List Char × List Char)
  | [] => none
  | c :: rest =>
    if c = ':' ∧ rest.take 2 = ['/', '/'] then some ([], rest.drop 2)
    else
      match go rest with
      | some (a, b) => some (c :: a, b)
      | none => none

/-- The path component of a URL, as `parse_url` sees it. -/
def urlPath (url : String) : String := (urlsplit url).2.2

/-- Result of `parse_url` (the dict built at `sndl.py` lines 44-50). -/
structure ParsedTarget where
  scheme : String
  host : String
  port : Int
  path : String
  ranges : List String
deriving DecidableEq, Repr

/-- `parse_url` (`sndl.py` lines 13-50): split the URL, read the optional
port (`int` may raise), find the first bracketed `[0-9,-]+` group in the
path (raising `"The range is not specified."` if there is none), replace
it by the marker `[*]` and split its inside on commas, stripping each
token and dropping empty tokens. -/
def parse_url (url : String) : Except String ParsedTarget :=
  let snp := urlsplit url
  let hostPort := pySplit ':' snp.2.1.data
  let portE : Except String Int :=
    if hostPort.length = 2 then
      match pyInt? (hostPort.getD 1 []) with
      | some n => Except.ok n
      | none => Except.error "invalid literal for int() with base 10"
    else Except.ok 0
  match portE with
  | Except.error e => Except.error e
  | Except.ok port =>
    match findBracket snp.2.2.data with
    | none => Except.error "The range is not specified."
    | some (pre, inner, suf) =>
      Except.ok
        { scheme := snp.1
          host := ⟨hostPort.headD []⟩
          port := port
          path := ⟨pre ++ '[' :: '*' :: ']' :: suf⟩
          ranges := (((pySplit ',' inner).map pyStrip).filter
              (fun t => !t.isEmpty)).map (fun t => (⟨t⟩ : String)) }

/-- Model of `re.fullmatch(r'([0-9]+)-([0-9]+)', s)`: the first group is
the maximal leading digit run (no other split can match, since a shorter
first group would have to match `'-'` against a digit), the rest must be a
dash followed by a nonempty digit run.  Returns the two digit groups. -/
def matchDashRange (l : List Char) : Option (List Char × List Char) :=
  let a := l.takeWhile Char.isDigit
  let r := l.dropWhile Char.isDigit
  if r.take 1 = ['-'] then
    let b := r.drop 1
    if a ≠ [] ∧ b ≠ [] ∧ b.all Char.isDigit then some (a, b) else none
  else none

/-- `get_digit` (`sndl.py` lines 53-75): the display width of a range
token, i.e. the character length of the token's first number literal;
raises `"Wrong range format."` for any other shape. -/
def get_digit (s : String) : Except String Nat :=
  match matchDashRange s.data with
  | some (a, _) => Except.ok a.length
  | none =>
    if s.data ≠ [] ∧ s.data.all Char.isDigit then Except.ok s.length
    else Except.error "Wrong range format."

/-- `parse_range` (`sndl.py` lines 78-104): the enumerated values of a
token, as the Python `range(begin, end + 1)` with bounds swapped when
given descending. -/
def parse_range (s : String) : Except String (List Nat) :=
  match matchDashRange s.data with
  | some (a, b) =>
    let x := digitsToNat a
    let y := digitsToNat b
    let lo := if x > y then y else x
    let hi := if x > y then x else y
    Except.ok (List.range' lo (hi + 1 - lo))
  | none =>
    if s.data ≠ [] ∧ s.data.all Char.isDigit then
      Except.ok (List.range' (digitsToNat s.data) 1)
    else Except.error "Wrong range format."

/-- Zero padding of `str(i)` by the format spec built at `sndl.py` line
192: right-align, fill with the zero character, minimum width `digit`; a
representation already at least that wide is unchanged (never
truncated). -/
def pad (digit : Nat) (i : Nat) : String :=
  ⟨List.replicate (digit - (Nat.repr i).length) '0' ++ (Nat.repr i).data⟩

/-- Model of `str.replace('[*]', rep)`: replace every (non-overlapping,
leftmost-first) occurrence of the marker. -/
def replaceMarker (l : List Char) (rep : List Char) : List Char :=
  match l with
  | '[' :: '*' :: ']' :: rest => rep ++ replaceMarker rest rep
  | c :: rest => c :: replaceMarker rest rep
  | [] => []

/-- The request path of one enumerated value (`sndl.py` line 192).  The
`str.format` step is modelled as direct substitution of the padded value,
which is exact whenever the template holds exactly one marker and no brace
characters. -/
def render (template : String) (digit : Nat) (i : Nat) : String :=
  ⟨replaceMarker template.data (pad digit i).data⟩

/-- Model of `os.path.basename`: the final path segment. -/
def basename (s : String) : String :=
  ⟨(s.data.reverse.takeWhile (fun c => c ≠ '/')).reverse⟩

/-- Number of occurrences of the literal marker `[*]` in a character
list, i.e. Python `s.count('[*]')` (occurrences of `[*]` can never
overlap, so counting every starting position is the same count). -/
def countMarker : List Char → Nat
  | [] => 0
  | c :: rest =>
    (if c = '[' ∧ rest.take 2 = ['*', ']'] then 1 else 0) + countMarker rest

/-- The marker `[*]` occurs somewhere in the list. -/
def hasMarker (l : List Char) : Prop :=
  ∃ s t, l = s ++ '[' :: '*' :: ']' :: t

/-- The connection object of `http.client`, reduced to the fields the
program reads: scheme, host, effective port and timeout. -/
structure Conn where
  scheme : String
  host : String
  port : Int
  timeout : Nat
deriving DecidableEq, Repr

/-- How the body stream of a `status < 300` response behaves while
`get_content` reads it: it either reaches end-of-stream after delivering
some number of bytes, or a `socket.timeout`/`RemoteDisconnected` is
raised mid-read, or some other exception is raised mid-read. -/
inductive StreamOutcome where
  | complete (delivered : Nat)
  | connDrop (delivered : Nat)
  | otherErr (delivered : Nat)
deriving DecidableEq, Repr

/-- The observable behaviour of the transport for one request: either a
response arrives — with status, reason, `Content-Length` header (`none`
models a missing or unparsable header, on which `int(...)` raises) and a
body stream — or the request itself raises
(`isConnError` distinguishes `socket.timeout`/`RemoteDisconnected` from
any other exception). -/
inductive ItemBehavior where
  | respond (status : Nat) (reason : String) (contentLength : Option Int)
      (stream : StreamOutcome)
  | requestError (isConnError : Bool)
deriving DecidableEq, Repr

/-- The observable events of a run: connecting, the per-item progress
line, the request, opening the destination file, the printed outcome
diagnostics, the countdown ticks, reconnecting, a diagnostic printed by
the loop's outer exception handler, and closing the connection. -/
inductive Event where
  | connect (conn : Conn)
  | itemStart (contentPath : String) (filePath : String)
  | request (path : String)
  | fileOpen (name : String)
  | resultStatus (code : Nat) (reason : String)
  | incomplete (remaining : Int)
  | excConn
  | excOther
  | tick (remaining : Nat)
  | reconnected (conn : Conn)
  | caught (msg : String)
  | close
deriving DecidableEq, Repr

/-- `get_content` (`sndl.py` lines 107-144).  Returns the boolean the
Python function returns (`true` = reconnect needed) and the events of the
attempt.  On `status < 300` with a readable `Content-Length`, the file is
opened and the body streamed; a leftover (or overshot) byte count at
end-of-stream is reported as `incomplete` and returns `true`; a
timeout/disconnect returns `true`; any other exception returns `false`.
On `status ≥ 300` the body is discarded and the status reported,
returning `false`.  (Discarding the body is treated as a primitive that
succeeds.) -/
def get_content (contentPath filePath : String) (b : ItemBehavior) :
    Bool × List Event :=
  let hdr := [Event.itemStart contentPath filePath, Event.request contentPath]
  match b with
  | ItemBehavior.requestError true => (true, hdr ++ [Event.excConn])
  | ItemBehavior.requestError false => (false, hdr ++ [Event.excOther])
  | ItemBehavior.respond status reason contentLength stream =>
    if status < 300 then
      match contentLength with
      | none => (false, hdr ++ [Event.excOther])
      | some n =>
        match stream with
        | StreamOutcome.complete d =>
          let remaining : Int := n - d
          if remaining = 0 then (false, hdr ++ [Event.fileOpen filePath])
          else
            (true, hdr ++ [Event.fileOpen filePath, Event.incomplete remaining])
        | StreamOutcome.connDrop _ =>
          (true, hdr ++ [Event.fileOpen filePath, Event.excConn])
        | StreamOutcome.otherErr _ =>
          (false, hdr ++ [Event.fileOpen filePath, Event.excOther])
    else (false, hdr ++ [Event.resultStatus status reason])

/-- The reconnect flag `get_content` computes for a behaviour (it does
not depend on the paths). -/
def reconnectFlag (b : ItemBehavior) : Bool := (get_content "" "" b).1

/-- Outcome classification of one attempt, following the spec's
`FetchOutcome` taxonomy, as determined by the behaviour. -/
inductive FetchOutcome where
  | success
  | failedIncomplete (remaining : Int)
  | failedStatus (code : Nat) (reason : String)
  | failedConnection
  | failedOther
deriving DecidableEq, Repr

/-- The `FetchOutcome` of a behaviour. -/
def outcomeOf : ItemBehavior → FetchOutcome
  | ItemBehavior.requestError true => FetchOutcome.failedConnection
  | ItemBehavior.requestError false => FetchOutcome.failedOther
  | ItemBehavior.respond status reason contentLength stream =>
    if status < 300 then
      match contentLength with
      | none => FetchOutcome.failedOther
      | some n =>
        match stream with
        | StreamOutcome.complete d =>
          if (n - d : Int) = 0 then FetchOutcome.success
          else FetchOutcome.failedIncomplete (n - d)
        | StreamOutcome.connDrop _ => FetchOutcome.failedConnection
        | StreamOutcome.otherErr _ => FetchOutcome.failedOther
    else FetchOutcome.failedStatus status reason

/-- `do_reconnecting` (`sndl.py` lines 147-162): one tick (a printed
remaining time and a one-second sleep) for each `s` in
`range(interval, -1, -1)`, then `conn.connect()`. -/
def do_reconnecting (conn : Conn) (interval : Nat := 180) : List Event :=
  (List.range (interval + 1)).map (fun k => Event.tick (interval - k))
    ++ [Event.reconnected conn]

/-- Inner loop of `download` (`sndl.py` lines 190-193) over the values of
one token: before each item, reconnect if the previous item asked for it;
then build the item's path and run `get_content` on the behaviour of the
`n`-th request of the run. -/
def runItems (conn : Conn) (env : Nat → ItemBehavior) (template : String)
    (digit : Nat) : List Nat → Nat → Bool → List Event × Nat × Bool
  | [], n, rc => ([], n, rc)
  | i :: rest, n, rc =>
    let pre := if rc then do_reconnecting conn 180 else []
    let path := render template digit i
    let r := get_content path (basename path) (env n)
    let rec2 := runItems conn env template digit rest (n + 1) r.1
    (pre ++ r.2 ++ rec2.1, rec2.2)

/-- Outer loop of `download` (`sndl.py` lines 188-193) over the range
tokens.  A `get_digit`/`parse_range` failure raises out of both loops
into the handler at line 194, which prints the message; processing of all
remaining tokens stops there. -/
def runRanges (conn : Conn) (env : Nat → ItemBehavior) (template : String) :
    List String → Nat → Bool → List Event × Nat × Bool
  | [], n, rc => ([], n, rc)
  | r :: rest, n, rc =>
    match get_digit r with
    | Except.error e => ([Event.caught e], n, rc)
    | Except.ok digit =>
      match parse_range r with
      | Except.error e => ([Event.caught e], n, rc)
      | Except.ok nums =>
        let a := runItems conn env template digit nums n rc
        let b := runRanges conn env template rest a.2.1 a.2.2
        (a.1 ++ b.1, b.2)

/-- Default port of `http.client.HTTP(S)Connection` when none is given. -/
def defaultPort (scheme : String) : Int := if scheme = "https" then 443 else 80

/-- The connection `download` builds (`sndl.py` lines 180-181):
`timeout = 60 * 5`, the URL's port or the scheme default. -/
def connOf (o : ParsedTarget) : Conn :=
  { scheme := o.scheme
    host := o.host
    port := if o.port = 0 then defaultPort o.scheme else o.port
    timeout := 300 }

/-- How a run ends: `normal` models `download` returning (the process
then exits with status zero); `fatal` models an exception escaping to the
top level (a traceback and a nonzero exit status). -/
inductive RunResult where
  | normal
  | fatal (msg : String)
deriving DecidableEq, Repr

/-- `download` (`sndl.py` lines 165-197).  `parse_url` runs before the
connection exists, so its exceptions are fatal.  An unknown scheme leaves
the local `client` unbound, which is also fatal before connecting.
Otherwise the connection is opened, the nested loops run inside
`try ... except ... finally`, and the connection is closed; any exception
the loops raise is printed and the run still returns normally.
(Connecting and closing are modelled as primitives that succeed.) -/
def download (url : String) (env : Nat → ItemBehavior) :
    RunResult × List Event :=
  match parse_url url with
  | Except.error e => (RunResult.fatal e, [])
  | Except.ok o =>
    if o.scheme = "http" ∨ o.scheme = "https" then
      let conn := connOf o
      (RunResult.normal,
        Event.connect conn
          :: (runRanges conn env o.path o.ranges 0 false).1 ++ [Event.close])
    else (RunResult.fatal "NameError: client is not defined", [])

/-- The items a valid token enumerates, as request paths. -/
def tokenItems (template : String) (r : String) : Except String (List String) :=
  match get_digit r with
  | Except.error e => Except.error e
  | Except.ok digit =>
    match parse_range r with
    | Except.error e => Except.error e
    | Except.ok nums => Except.ok (nums.map (render template digit))

/-- The full enumeration of request paths over a token list (an error if
some token is invalid). -/
def itemPathsList (template : String) : List String → Except String (List String)
  | [] => Except.ok []
  | r :: rest =>
    match tokenItems template r with
    | Except.error e => Except.error e
    | Except.ok xs =>
      match itemPathsList template rest with
      | Except.error e => Except.error e
      | Except.ok ys => Except.ok (xs ++ ys)

/-- The full enumeration of request paths of a parsed target. -/
def itemPaths (o : ParsedTarget) : Except String (List String) :=
  itemPathsList o.path o.ranges

/-- Reference form of the fetch loop over the flat path enumeration
(reconnect-if-flagged, then fetch, threading the flag). -/
def flatLoop (conn : Conn) (env : Nat → ItemBehavior) :
    List String → Nat → Bool → List Event
  | [], _, _ => []
  | p :: rest, n, rc =>
    (if rc then do_reconnecting conn 180 else [])
      ++ (get_content p (basename p) (env n)).2
      ++ flatLoop conn env rest (n + 1) (reconnectFlag (env n))

/-- The reconnect flag that is pending after processing `len` items
starting at request index `n`, given the flag `rc` pending before them. -/
def finalFlag (env : Nat → ItemBehavior) (n len : Nat) (rc : Bool) : Bool :=
  if len = 0 then rc else reconnectFlag (env (n + len - 1))

/-- The events of the `j`-th item of a run whose enumeration is `paths`:
the reconnect countdown when item `j - 1` asked for one, then the fetch
attempt of path `j` on the `j`-th request behaviour. -/
def blockAt (conn : Conn) (env : Nat → ItemBehavior) (paths : List String)
    (j : Nat) : List Event :=
  (if j = 0 then []
   else if reconnectFlag (env (j - 1)) then do_reconnecting conn 180 else [])
    ++ (get_content (paths.getD j "") (basename (paths.getD j ""))
        (env j)).2

/-- Is this event a request? -/
def isRequest : Event → Bool
  | Event.request _ => true
  | _ => false

/-- Is this event a countdown tick? -/
def isTick : Event → Bool
  | Event.tick _ => true
  | _ => false

/-- The countdown values `interval, interval - 1, ..., 0`. -/
def descList : Nat → List Nat
  | 0 => [0]
  | n + 1 => (n + 1) :: descList n

section Lemmas

lemma get_content_fst (p f : String) (b : ItemBehavior) :
    (get_content p f b).1 = reconnectFlag b := by
  cases b with
  | requestError ic => cases ic <;> rfl
  | respond s r cl st =>
    simp only [get_content, reconnectFlag]
    split
    · cases cl with
      | none => rfl
      | some n =>
        cases st with
        | complete d => by_cases h : (n - d : Int) = 0 <;> simp [h]
        | connDrop d => rfl
        | otherErr d => rfl
    · rfl

lemma reconnectFlag_iff (b : ItemBehavior) :
    reconnectFlag b = true ↔
      (outcomeOf b = FetchOutcome.failedConnection
        ∨ ∃ m, outcomeOf b = FetchOutcome.failedIncomplete m) := by
  cases b with
  | requestError ic =>
    cases ic <;> simp [reconnectFlag, get_content, outcomeOf]
  | respond s r cl st =>
    simp only [reconnectFlag, get_content, outcomeOf]
    split
    · cases cl with
      | none => simp
      | some n =>
        cases st with
        | complete d =>
          by_cases h : (n - d : Int) = 0 <;> simp [h]
        | connDrop d => simp
        | otherErr d => simp
    · simp

lemma get_content_filter_request (p f : String) (b : ItemBehavior) :
    ((get_content p f b).2).filter isRequest = [Event.request p] := by
  cases b with
  | requestError ic => cases ic <;> simp [get_content, isRequest]
  | respond s r cl st =>
    simp only [get_content]
    split
    · cases cl with
      | none => simp [isRequest]
      | some n =>
        cases st with
        | complete d =>
          by_cases h : (n - d : Int) = 0 <;> simp [h, isRequest]
        | connDrop d => simp [isRequest]
        | otherErr d => simp [isRequest]
    · simp [isRequest]

lemma get_content_no_reconnected (p f : String) (b : ItemBehavior) (c : Conn) :
    Event.reconnected c ∉ (get_content p f b).2 := by
  cases b with
  | requestError ic => cases ic <;> simp [get_content]
  | respond s r cl st =>
    simp only [get_content]
    split
    · cases cl with
      | none => simp
      | some n =>
        cases st with
        | complete d =>
          by_cases h : (n - d : Int) = 0 <;> simp [h]
        | connDrop d => simp
        | otherErr d => simp
    · simp

lemma get_content_fileOpen_iff (p f : String) (b : ItemBehavior) :
    Event.fileOpen f ∈ (get_content p f b).2 ↔
      ∃ s r n st, b = ItemBehavior.respond s r (some n) st ∧ s < 300 := by
  cases b with
  | requestError ic => cases ic <;> simp [get_content]
  | respond s r cl st =>
    by_cases hs : s < 300
    · cases cl with
      | none =>
        apply iff_of_false
        · simp [get_content, hs]
        · rintro ⟨s', r', n', st', heq, hlt⟩
          simp at heq
      | some n =>
        apply iff_of_true
        · cases st with
          | complete d =>
            by_cases h : (n - d : Int) = 0 <;> simp [get_content, hs, h]
          | connDrop d => simp [get_content, hs]
          | otherErr d => simp [get_content, hs]
        · exact ⟨s, r, n, st, rfl, hs⟩
    · apply iff_of_false
      · simp [get_content, hs]
      · rintro ⟨s', r', n', st', heq, hlt⟩
        simp only [ItemBehavior.respond.injEq] at heq
        obtain ⟨h1, -, -, -⟩ := heq
        omega

lemma filter_map_tick (g : Nat → Nat) (l : List Nat) (q : Event → Bool)
    (hq : ∀ n, q (Event.tick n) = false) :
    (l.map (fun k => Event.tick (g k))).filter q = [] := by
  induction l with
  | nil => rfl
  | cons a l ih => simp [List.filter_cons, hq, ih]

lemma do_reconnecting_filter_request (c : Conn) (n : Nat) :
    (do_reconnecting c n).filter isRequest = [] := by
  have h := filter_map_tick (fun k => n - k) (List.range (n + 1)) isRequest
    (fun m => rfl)
  simp only [do_reconnecting, List.filter_append, h]
  simp [isRequest]

lemma mem_do_reconnecting_reconnected (c c' : Conn) (n : Nat)
    (h : Event.reconnected c' ∈ do_reconnecting c n) : c' = c := by
  simp [do_reconnecting] at h
  exact h

lemma descList_eq (n : Nat) :
    descList n = (List.range (n + 1)).map (fun k => n - k) := by
  induction n with
  | zero => rfl
  | succ m ih =>
    rw [List.range_succ_eq_map]
    simp only [List.map_cons, Nat.sub_zero, List.map_map, descList]
    congr 1
    rw [ih]
    apply List.map_congr_left
    intro a _
    simp [Nat.succ_sub_succ]

lemma do_reconnecting_eq_descList (c : Conn) (n : Nat) :
    do_reconnecting c n = (descList n).map Event.tick ++ [Event.reconnected c] := by
  simp only [do_reconnecting, descList_eq, List.map_map]
  rfl

lemma do_reconnecting_tick_count (c : Conn) (n : Nat) :
    ((do_reconnecting c n).filter isTick).length = n + 1 := by
  rw [do_reconnecting_eq_descList]
  have hall : ∀ l : List Nat, (l.map Event.tick).filter isTick = l.map Event.tick := by
    intro l
    induction l with
    | nil => rfl
    | cons a l ih => simp [List.filter_cons, isTick, ih]
  have hlen : ∀ m : Nat, (descList m).length = m + 1 := by
    intro m
    induction m with
    | zero => rfl
    | succ k ih => simp [descList, ih]
  simp [List.filter_append, hall, isTick, hlen]

lemma finalFlag_comp (env : Nat → ItemBehavior) (n a b : Nat) (rc : Bool) :
    finalFlag env (n + a) b (finalFlag env n a rc) = finalFlag env n (a + b) rc := by
  simp only [finalFlag]
  rcases Nat.eq_zero_or_pos b with hb | hb
  · subst hb
    simp
  · have h1 : b ≠ 0 := by omega
    have h2 : a + b ≠ 0 := by omega
    rw [if_neg h1, if_neg h2]
    have h3 : n + a + b - 1 = n + (a + b) - 1 := by omega
    rw [h3]

lemma finalFlag_one (env : Nat → ItemBehavior) (n : Nat) (rc : Bool) :
    finalFlag env n 1 rc = reconnectFlag (env n) := by
  simp [finalFlag]

lemma finalFlag_step (env : Nat → ItemBehavior) (n len : Nat) (rc : Bool) :
    finalFlag env (n + 1) len (reconnectFlag (env n)) =
      finalFlag env n (len + 1) rc := by
  rw [← finalFlag_one env n rc, finalFlag_comp, Nat.add_comm 1 len]

lemma runItems_eq_flatLoop (conn : Conn) (env : Nat → ItemBehavior)
    (template : String) (digit : Nat) (nums : List Nat) (n : Nat) (rc : Bool) :
    runItems conn env template digit nums n rc =
      (flatLoop conn env (nums.map (render template digit)) n rc,
        n + nums.length, finalFlag env n nums.length rc) := by
  induction nums generalizing n rc with
  | nil => simp [runItems, flatLoop, finalFlag]
  | cons i rest ih =>
    simp only [runItems, List.map_cons, flatLoop, ih, get_content_fst,
      List.length_map, List.length_cons, Prod.mk.injEq]
    refine ⟨by simp, by omega, ?_⟩
    exact finalFlag_step env n rest.length rc

lemma flatLoop_append (conn : Conn) (env : Nat → ItemBehavior)
    (xs ys : List String) (n : Nat) (rc : Bool) :
    flatLoop conn env (xs ++ ys) n rc =
      flatLoop conn env xs n rc
        ++ flatLoop conn env ys (n + xs.length) (finalFlag env n xs.length rc) := by
  induction xs generalizing n rc with
  | nil => simp [flatLoop, finalFlag]
  | cons p rest ih =>
    simp only [List.cons_append, flatLoop, List.append_eq, ih,
      List.append_assoc, List.length_cons]
    have h1 : n + 1 + rest.length = n + (rest.length + 1) := by omega
    rw [finalFlag_step env n rest.length rc, h1]

lemma tokenItems_inv (template r : String) (xs : List String)
    (h : tokenItems template r = Except.ok xs) :
    ∃ d nums, get_digit r = Except.ok d ∧ parse_range r = Except.ok nums
      ∧ xs = nums.map (render template d) := by
  unfold tokenItems at h
  cases hd : get_digit r with
  | error e => rw [hd] at h; exact absurd h (by simp)
  | ok d =>
    rw [hd] at h
    cases hr : parse_range r with
    | error e => rw [hr] at h; exact absurd h (by simp)
    | ok nums =>
      rw [hr] at h
      injection h with h
      exact ⟨d, nums, rfl, rfl, h.symm⟩

lemma runRanges_eq_flatLoop (conn : Conn) (env : Nat → ItemBehavior)
    (template : String) (rs : List String) (paths : List String)
    (n : Nat) (rc : Bool)
    (h : itemPathsList template rs = Except.ok paths) :
    runRanges conn env template rs n rc =
      (flatLoop conn env paths n rc, n + paths.length,
        finalFlag env n paths.length rc) := by
  induction rs generalizing paths n rc with
  | nil =>
    simp only [itemPathsList] at h
    injection h with h
    subst h
    simp [runRanges, flatLoop, finalFlag]
  | cons r rest ih =>
    simp only [itemPathsList] at h
    cases ht : tokenItems template r with
    | error e => rw [ht] at h; exact absurd h (by simp)
    | ok xs =>
      rw [ht] at h
      cases hrest : itemPathsList template rest with
      | error e => rw [hrest] at h; exact absurd h (by simp)
      | ok ys =>
        rw [hrest] at h
        injection h with h
        subst h
        obtain ⟨d, nums, hd, hr, hxs⟩ := tokenItems_inv template r xs ht
        subst hxs
        simp only [runRanges, hd, hr, runItems_eq_flatLoop, List.length_map,
          ih ys (n + nums.length) (finalFlag env n nums.length rc) hrest,
          Prod.mk.injEq]
        rw [flatLoop_append]
        refine ⟨by simp [List.length_map], by simp [List.length_map]; omega, ?_⟩
        simp only [List.length_append, List.length_map]
        rw [finalFlag_comp]

lemma runRanges_prefix_error (conn : Conn) (env : Nat → ItemBehavior)
    (template : String) (pre : List String) (bad : String)
    (rest : List String) (paths : List String) (m : String)
    (n : Nat) (rc : Bool)
    (hpre : itemPathsList template pre = Except.ok paths)
    (hbad : get_digit bad = Except.error m) :
    (runRanges conn env template (pre ++ bad :: rest) n rc).1 =
      flatLoop conn env paths n rc ++ [Event.caught m] := by
  induction pre generalizing paths n rc with
  | nil =>
    simp only [itemPathsList] at hpre
    injection hpre with hpre
    subst hpre
    simp [runRanges, hbad, flatLoop]
  | cons r rest' ih =>
    simp only [itemPathsList] at hpre
    cases ht : tokenItems template r with
    | error e => rw [ht] at hpre; exact absurd hpre (by simp)
    | ok xs =>
      rw [ht] at hpre
      cases hrest : itemPathsList template rest' with
      | error e => rw [hrest] at hpre; exact absurd hpre (by simp)
      | ok ys =>
        rw [hrest] at hpre
        injection hpre with hpre
        subst hpre
        obtain ⟨d, nums, hd, hr, hxs⟩ := tokenItems_inv template r xs ht
        subst hxs
        simp only [List.cons_append, runRanges, hd, hr, runItems_eq_flatLoop,
          List.length_map, List.append_eq]
        rw [ih ys (n + nums.length) (finalFlag env n nums.length rc) hrest,
          flatLoop_append]
        simp [List.length_map, List.append_assoc]

lemma flatLoop_eq_blocks (conn : Conn) (env : Nat → ItemBehavior)
    (paths : List String) (n : Nat) (rc : Bool) :
    flatLoop conn env paths n rc =
      ((List.range paths.length).map (fun j =>
        (if j = 0 then (if rc then do_reconnecting conn 180 else [])
         else if reconnectFlag (env (n + j - 1)) then do_reconnecting conn 180
         else [])
        ++ (get_content (paths.getD j "") (basename (paths.getD j ""))
            (env (n + j))).2)).flatten := by
  induction paths generalizing n rc with
  | nil => simp [flatLoop]
  | cons p rest ih =>
    rw [List.length_cons, List.range_succ_eq_map]
    simp only [flatLoop, List.map_cons, List.flatten_cons, List.map_map,
      if_pos rfl, List.getD_cons_zero, Nat.add_zero]
    congr 1
    rw [ih (n + 1) (reconnectFlag (env n))]
    congr 1
    apply List.map_congr_left
    intro j hj
    rcases j with _ | k
    · simp
    · have h1 : n + 1 + (k + 1) - 1 = n + (k + 1 + 1) - 1 := by omega
      have h2 : n + 1 + (k + 1) = n + (k + 1 + 1) := by omega
      simp only [Function.comp_apply, Nat.succ_eq_add_one,
        List.getD_cons_succ, h1, h2]
      simp

lemma flatLoop_filter_request (conn : Conn) (env : Nat → ItemBehavior)
    (paths : List String) (n : Nat) (rc : Bool) :
    (flatLoop conn env paths n rc).filter isRequest =
      paths.map Event.request := by
  induction paths generalizing n rc with
  | nil => rfl
  | cons p rest ih =>
    simp only [flatLoop, List.filter_append, get_content_filter_request,
      ih, List.map_cons]
    rcases rc with _ | _
    · simp
    · simp [do_reconnecting_filter_request]

lemma flatLoop_reconnected_conn (conn : Conn) (env : Nat → ItemBehavior)
    (paths : List String) (n : Nat) (rc : Bool) (c' : Conn)
    (h : Event.reconnected c' ∈ flatLoop conn env paths n rc) : c' = conn := by
  induction paths generalizing n rc with
  | nil => simp [flatLoop] at h
  | cons p rest ih =>
    simp only [flatLoop, List.mem_append] at h
    rcases h with (h | h) | h
    · rcases rc with _ | _
      · simp at h
      · exact mem_do_reconnecting_reconnected conn c' 180 (by simpa using h)
    · exact absurd h (get_content_no_reconnected _ _ _ _)
    · exact ih (n + 1) (reconnectFlag (env n)) h

lemma download_shape (url : String) (env : Nat → ItemBehavior)
    (o : ParsedTarget) (paths : List String)
    (ho : parse_url url = Except.ok o)
    (hs : o.scheme = "http" ∨ o.scheme = "https")
    (hp : itemPaths o = Except.ok paths) :
    download url env =
      (RunResult.normal,
        Event.connect (connOf o)
          :: ((List.range paths.length).map (blockAt (connOf o) env paths)).flatten
          ++ [Event.close]) := by
  simp only [download, ho, if_pos hs,
    runRanges_eq_flatLoop (connOf o) env o.path o.ranges paths 0 false hp,
    flatLoop_eq_blocks, Prod.mk.injEq, true_and]
  congr 1
  congr 1
  congr 1
  apply List.map_congr_left
  intro j hj
  simp [blockAt]

lemma take_one_eq {α : Type} (l : List α) (x : α) (h : l.take 1 = [x]) :
    l = x :: l.drop 1 := by
  cases l with
  | nil => simp at h
  | cons a t => simp_all

lemma findBracket_sound (l pre inner suf : List Char)
    (h : findBracket l = some (pre, inner, suf)) :
    l = pre ++ '[' :: inner ++ ']' :: suf
      ∧ inner ≠ [] ∧ inner.all isRangeChar = true := by
  induction l generalizing pre with
  | nil => simp [findBracket] at h
  | cons c rest ih =>
    simp only [findBracket] at h
    split at h
    · rename_i hcond
      obtain ⟨hc, hne, htake⟩ := hcond
      simp only [Option.some.injEq, Prod.mk.injEq] at h
      obtain ⟨h1, h2, h3⟩ := h
      subst h1
      subst h2
      subst h3
      subst hc
      refine ⟨?_, hne, List.all_takeWhile⟩
      simp only [List.nil_append, List.cons.injEq, true_and]
      conv_lhs => rw [← List.takeWhile_append_dropWhile isRangeChar rest]
      rw [← take_one_eq (rest.dropWhile isRangeChar) ']' htake]
      simp
    · cases hfb : findBracket rest with
      | none => rw [hfb] at h; simp at h
      | some v =>
        obtain ⟨p, i, s⟩ := v
        rw [hfb] at h
        simp only [Option.some.injEq, Prod.mk.injEq] at h
        obtain ⟨h1, h2, h3⟩ := h
        subst h1
        subst h2
        subst h3
        obtain ⟨hrest, hne, hall⟩ := ih p hfb
        refine ⟨?_, hne, hall⟩
        rw [hrest]
        simp

lemma take_two_eq {α : Type} (l : List α) (x y : α) (h : l.take 2 = [x, y]) :
    l = x :: y :: l.drop 2 := by
  cases l with
  | nil => simp at h
  | cons a t =>
    cases t with
    | nil => simp at h
    | cons b t' => simp_all

lemma countMarker_marker_cons (t : List Char) :
    countMarker ('[' :: '*' :: ']' :: t) = countMarker t + 1 := by
  simp [countMarker]
  omega

lemma countMarker_pos_of_hasMarker (l : List Char) (h : hasMarker l) :
    0 < countMarker l := by
  obtain ⟨s, t, rfl⟩ := h
  induction s with
  | nil =>
    rw [List.nil_append, countMarker_marker_cons]
    omega
  | cons a s' ih =>
    rw [List.cons_append]
    simp only [countMarker]
    exact Nat.lt_of_lt_of_le ih (Nat.le_add_left _ _)

lemma countMarker_eq_zero (l : List Char) (h : ¬ hasMarker l) :
    countMarker l = 0 := by
  induction l with
  | nil => rfl
  | cons c rest ih =>
    simp only [countMarker]
    split
    · rename_i hc
      obtain ⟨hc1, hc2⟩ := hc
      exact absurd ⟨[], rest.drop 2, by rw [hc1, take_two_eq rest _ _ hc2]; rfl⟩ h
    · rw [Nat.zero_add]
      apply ih
      rintro ⟨s, t, hst⟩
      exact h ⟨c :: s, t, by rw [hst]; rfl⟩

lemma countMarker_one (pre suf : List Char) (hp : ¬ hasMarker pre)
    (hs : ¬ hasMarker suf) :
    countMarker (pre ++ '[' :: '*' :: ']' :: suf) = 1 := by
  induction pre with
  | nil =>
    rw [List.nil_append, countMarker_marker_cons, countMarker_eq_zero suf hs]
  | cons a pre' ih =>
    have hp' : ¬ hasMarker pre' := by
      rintro ⟨s, t, hst⟩
      exact hp ⟨a :: s, t, by rw [hst]; rfl⟩
    rw [List.cons_append]
    simp only [countMarker]
    split
    · rename_i hc
      obtain ⟨hc1, hc2⟩ := hc
      exfalso
      cases pre' with
      | nil => simp at hc2
      | cons b pre'' =>
        cases pre'' with
        | nil => simp at hc2
        | cons b2 pre''' =>
          simp only [List.cons_append, List.take_succ_cons, List.take_zero,
            List.cons.injEq, and_true] at hc2
          exact hp ⟨[], pre''', by simp [hc1, hc2.1, hc2.2]⟩
    · rw [Nat.zero_add]
      exact ih hp'

lemma parse_url_ok_inv (url : String) (o : ParsedTarget)
    (h : parse_url url = Except.ok o) :
    ∃ pre inner suf,
      findBracket (urlPath url).data = some (pre, inner, suf)
      ∧ o.path = (⟨pre ++ '[' :: '*' :: ']' :: suf⟩ : String)
      ∧ o.ranges = (((pySplit ',' inner).map pyStrip).filter
          (fun t => !t.isEmpty)).map (fun t => (⟨t⟩ : String)) := by
  simp only [parse_url] at h
  split at h
  · exact absurd h (by simp)
  · split at h
    · exact absurd h (by simp)
    · rename_i pre inner suf hfb
      simp only [Except.ok.injEq] at h
      subst h
      exact ⟨pre, inner, suf, hfb, rfl, rfl⟩

lemma takeWhile_digits_append (a b : List Char)
    (ha : a.all Char.isDigit = true) :
    (a ++ '-' :: b).takeWhile Char.isDigit = a
      ∧ (a ++ '-' :: b).dropWhile Char.isDigit = '-' :: b := by
  induction a with
  | nil =>
    constructor
    · rw [List.nil_append, List.takeWhile_cons_of_neg (by decide)]
    · rw [List.nil_append, List.dropWhile_cons_of_neg (by decide)]
  | cons c a' ih =>
    simp only [List.all_cons, Bool.and_eq_true] at ha
    obtain ⟨hc, ha'⟩ := ha
    obtain ⟨h1, h2⟩ := ih ha'
    constructor
    · rw [List.cons_append, List.takeWhile_cons_of_pos hc, h1]
    · rw [List.cons_append, List.dropWhile_cons_of_pos hc, h2]

lemma matchDashRange_eq (a b : List Char) (ha : a ≠ []) (hb : b ≠ [])
    (hda : a.all Char.isDigit = true) (hdb : b.all Char.isDigit = true) :
    matchDashRange (a ++ '-' :: b) = some (a, b) := by
  obtain ⟨h1, h2⟩ := takeWhile_digits_append a b hda
  simp only [matchDashRange, h1, h2]
  simp [ha, hb, hdb]

lemma string_length_data (s : String) : s.length = s.data.length := rfl

lemma pad_length (d i : Nat) :
    (pad d i).length = max d (Nat.repr i).length := by
  simp only [pad, string_length_data, List.length_append,
    List.length_replicate]
  omega

lemma pad_eq_of_le (d i : Nat) (h : d ≤ (Nat.repr i).length) :
    pad d i = Nat.repr i := by
  have h0 : d - (Nat.repr i).length = 0 := by omega
  simp only [pad, h0]
  rfl

lemma pad_data (d i : Nat) :
    (pad d i).data =
      List.replicate ((pad d i).length - (Nat.repr i).length) '0'
        ++ (Nat.repr i).data := by
  rw [pad_length]
  have h : max d (Nat.repr i).length - (Nat.repr i).length
      = d - (Nat.repr i).length := by omega
  rw [h]
  rfl

lemma repr_suffix_pad (d i : Nat) : (Nat.repr i).data <:+ (pad d i).data :=
  ⟨List.replicate (d - (Nat.repr i).length) '0', rfl⟩

lemma range'_head (s n : Nat) : (List.range' s (n + 1)).head? = some s := by
  rw [List.range'_succ]
  rfl

lemma range'_getLast (s n : Nat) :
    (List.range' s (n + 1)).getLast? = some (s + n) := by
  rw [List.range'_1_concat]
  exact List.getLast?_concat _

lemma get_content_fileOpen_name (p f f' : String) (b : ItemBehavior)
    (h : Event.fileOpen f' ∈ (get_content p f b).2) : f' = f := by
  cases b with
  | requestError ic => cases ic <;> simp [get_content] at h
  | respond s r cl st =>
    by_cases hs : s < 300
    · cases cl with
      | none => simp [get_content, hs] at h
      | some n =>
        cases st with
        | complete d =>
          by_cases h0 : (n - d : Int) = 0 <;> simp_all [get_content]
        | connDrop d => simp_all [get_content]
        | otherErr d => simp_all [get_content]
    · simp [get_content, hs] at h

lemma download_eq_flatLoop (url : String) (env : Nat → ItemBehavior)
    (o : ParsedTarget) (paths : List String)
    (ho : parse_url url = Except.ok o)
    (hs : o.scheme = "http" ∨ o.scheme = "https")
    (hp : itemPaths o = Except.ok paths) :
    download url env =
      (RunResult.normal,
        Event.connect (connOf o) :: flatLoop (connOf o) env paths 0 false
          ++ [Event.close]) := by
  simp only [download, ho, if_pos hs,
    runRanges_eq_flatLoop (connOf o) env o.path o.ranges paths 0 false hp]

lemma download_filter_request (url : String) (env : Nat → ItemBehavior)
    (o : ParsedTarget) (paths : List String)
    (ho : parse_url url = Except.ok o)
    (hs : o.scheme = "http" ∨ o.scheme = "https")
    (hp : itemPaths o = Except.ok paths) :
    ((download url env).2).filter isRequest = paths.map Event.request := by
  rw [download_eq_flatLoop url env o paths ho hs hp]
  simp only [List.filter_cons, List.filter_append,
    flatLoop_filter_request]
  simp [isRequest]

lemma download_reconnected_conn (url : String) (env : Nat → ItemBehavior)
    (o : ParsedTarget) (paths : List String) (c' : Conn)
    (ho : parse_url url = Except.ok o)
    (hs : o.scheme = "http" ∨ o.scheme = "https")
    (hp : itemPaths o = Except.ok paths)
    (hmem : Event.reconnected c' ∈ (download url env).2) : c' = connOf o := by
  rw [download_eq_flatLoop url env o paths ho hs hp] at hmem
  simp only [List.mem_cons, List.mem_append, List.mem_singleton] at hmem
  rcases hmem with (h | h) | h
  · exact absurd h (by simp)
  · exact flatLoop_reconnected_conn (connOf o) env paths 0 false c' h
  · exact absurd h (by simp)

lemma hasMarker_append_left (l t : List Char) (h : hasMarker l) :
    hasMarker (l ++ t) := by
  obtain ⟨s, u, rfl⟩ := h
  exact ⟨s, u ++ t, by simp⟩

end Lemmas

section Scenarios

/-- A transport behaviour that always raises a timeout on request. -/
def envConnErr : Nat → ItemBehavior := fun _ => ItemBehavior.requestError true

/-- Sample target URL with one dash-range token. -/
def wUrl : String := "http://www.example.com/a[1-2].jpg"

/-- The parse of `wUrl`. -/
def wTarget : ParsedTarget :=
  { scheme := "http", host := "www.example.com", port := 0,
    path := "/a[*].jpg", ranges := ["1-2"] }

/-- The two enumerated request paths of `wUrl`. -/
def wPaths : List String := ["/a1.jpg", "/a2.jpg"]

/-- A transport behaviour whose first response declares 1000 bytes but
delivers only 900 (a truncated download) and then serves complete
10-byte responses. -/
def wEnv : Nat → ItemBehavior := fun n =>
  if n = 0 then
    ItemBehavior.respond 200 "OK" (some 1000) (StreamOutcome.complete 900)
  else ItemBehavior.respond 200 "OK" (some 10) (StreamOutcome.complete 10)

end Scenarios

section Claims

/-- C1 counterexample: for the URL `http://www.example.com/[1-2-3].jpg`,
whose bracket token `1-2-3` is neither a singleton nor a dash-range, the
run does not fail pre-flight: the connection is opened (a network action)
and the process exits normally (status zero), contradicting the claim
that an `InvalidRangeFormat` URL terminates with nonzero status before
any network activity. -/
theorem c1_counterexample :
    (download "http://www.example.com/[1-2-3].jpg" envConnErr).1
      = RunResult.normal
    ∧ Event.connect ⟨"http", "www.example.com", 80, 300⟩
        ∈ (download "http://www.example.com/[1-2-3].jpg" envConnErr).2 := by
  constructor
  · rfl
  · decide

/-- C1 (amended): a bracket token made only of digits, commas and dashes
that is neither a singleton nor a dash-range (such as `1-2-3`) passes
`parse_url`; the `InvalidRangeFormat` failure (`"Wrong range format."`)
is raised only when the download loop reaches that token — after the
connection is opened and after all items of the tokens before it have
been fetched — and it is caught by the loop's handler, so the run prints
the diagnostic, closes the connection and exits normally (status zero)
rather than failing pre-flight with nonzero status.  A bracket whose
content has other characters (such as `abc`) is not recognised by the
bracket regex at all, so that URL fails pre-flight with
`NoRangeSpecified`, not `InvalidRangeFormat`. -/
theorem c1_invalid_token_after_connect
    (url : String) (env : Nat → ItemBehavior) (o : ParsedTarget)
    (pre : List String) (bad : String) (rest : List String)
    (paths : List String) (m : String)
    (ho : parse_url url = Except.ok o)
    (hs : o.scheme = "http" ∨ o.scheme = "https")
    (hsplit : o.ranges = pre ++ bad :: rest)
    (hpre : itemPathsList o.path pre = Except.ok paths)
    (hbad : get_digit bad = Except.error m) :
    download url env =
      (RunResult.normal,
        Event.connect (connOf o) :: flatLoop (connOf o) env paths 0 false
          ++ [Event.caught m] ++ [Event.close])
    ∧ parse_url "http://www.example.com/[abc].jpg"
        = Except.error "The range is not specified." := by
  constructor
  · simp only [download, ho, if_pos hs, hsplit]
    rw [runRanges_prefix_error (connOf o) env o.path pre bad rest paths m 0
      false hpre hbad]
    simp [List.append_assoc]
  · rfl

/-- C1 witness: the amended statement at the concrete URL
`http://www.example.com/a[2,1-2-3].jpg` under an always-timeout
transport: the item of the valid token `2` is processed, then the bad
token's diagnostic is printed and the run ends normally. -/
theorem c1_witness :
    parse_url "http://www.example.com/a[2,1-2-3].jpg" =
      Except.ok ⟨"http", "www.example.com", 0, "/a[*].jpg", ["2", "1-2-3"]⟩
    ∧ itemPathsList "/a[*].jpg" ["2"] = Except.ok ["/a2.jpg"]
    ∧ get_digit "1-2-3" = Except.error "Wrong range format."
    ∧ download "http://www.example.com/a[2,1-2-3].jpg" envConnErr =
        (RunResult.normal,
          Event.connect
              (connOf ⟨"http", "www.example.com", 0, "/a[*].jpg", ["2", "1-2-3"]⟩)
            :: flatLoop
                (connOf ⟨"http", "www.example.com", 0, "/a[*].jpg", ["2", "1-2-3"]⟩)
                envConnErr ["/a2.jpg"] 0 false
            ++ [Event.caught "Wrong range format."] ++ [Event.close]) := by
  refine ⟨rfl, rfl, rfl, ?_⟩
  exact (c1_invalid_token_after_connect
    "http://www.example.com/a[2,1-2-3].jpg" envConnErr
    ⟨"http", "www.example.com", 0, "/a[*].jpg", ["2", "1-2-3"]⟩
    ["2"] "1-2-3" [] ["/a2.jpg"] "Wrong range format."
    rfl (Or.inl rfl) rfl rfl rfl).1

/-- C2: for every run over valid range tokens, the trace is exactly one
block per enumerated item, where a block consists of the reconnect
countdown if and only if the previous item's outcome was
`FailedIncomplete` or `FailedConnection`, followed by that item's fetch
attempt; in particular, after an item fails with `FailedIncomplete` or
`FailedConnection`, the next item's block begins with the full
countdown-and-reconnect before the next item's request; and every
enumerated item is requested exactly once, in order — the failed item is
never retried. -/
theorem c2_reconnect_before_next_item
    (url : String) (env : Nat → ItemBehavior) (o : ParsedTarget)
    (paths : List String)
    (ho : parse_url url = Except.ok o)
    (hs : o.scheme = "http" ∨ o.scheme = "https")
    (hp : itemPaths o = Except.ok paths) :
    download url env =
      (RunResult.normal,
        Event.connect (connOf o)
          :: ((List.range paths.length).map (blockAt (connOf o) env paths)).flatten
          ++ [Event.close])
    ∧ (∀ j, j + 1 < paths.length →
        ((∃ m, outcomeOf (env j) = FetchOutcome.failedIncomplete m)
          ∨ outcomeOf (env j) = FetchOutcome.failedConnection) →
        blockAt (connOf o) env paths (j + 1) =
          do_reconnecting (connOf o) 180
            ++ (get_content (paths.getD (j + 1) "")
                (basename (paths.getD (j + 1) "")) (env (j + 1))).2)
    ∧ ((download url env).2).filter isRequest = paths.map Event.request := by
  refine ⟨download_shape url env o paths ho hs hp, ?_,
    download_filter_request url env o paths ho hs hp⟩
  intro j hj hout
  have hflag : reconnectFlag (env j) = true := by
    rw [reconnectFlag_iff]
    rcases hout with ⟨m, hm'⟩ | h'
    · exact Or.inr ⟨m, hm'⟩
    · exact Or.inl h'
  simp [blockAt, hflag]

/-- C2 witness: the concrete run of `http://www.example.com/a[1-2].jpg`
where item 0's response declares 1000 bytes but delivers 900
(`FailedIncomplete 100`): item 1's block starts with the countdown and
reconnect, and each of the two items is requested exactly once. -/
theorem c2_witness :
    parse_url wUrl = Except.ok wTarget
    ∧ itemPaths wTarget = Except.ok wPaths
    ∧ outcomeOf (wEnv 0) = FetchOutcome.failedIncomplete 100
    ∧ blockAt (connOf wTarget) wEnv wPaths 1 =
        do_reconnecting (connOf wTarget) 180
          ++ (get_content (wPaths.getD 1 "") (basename (wPaths.getD 1 ""))
              (wEnv 1)).2
    ∧ ((download wUrl wEnv).2).filter isRequest = wPaths.map Event.request := by
  have h := c2_reconnect_before_next_item wUrl wEnv wTarget wPaths
    rfl (Or.inl rfl) rfl
  exact ⟨rfl, rfl, rfl,
    h.2.1 0 (by decide) (Or.inl ⟨100, rfl⟩), h.2.2⟩

/-- C3: for every URL that parses with valid range tokens and a known
scheme, and for every transport behaviour whatsoever (any mix of
successes, status failures, incomplete bodies, connection drops and
other per-item errors), the run requests every enumerated item exactly
once in order, ends by closing the connection, and returns normally
(exit status zero): no per-item outcome aborts the remaining items. -/
theorem c3_all_items_processed
    (url : String) (env : Nat → ItemBehavior) (o : ParsedTarget)
    (paths : List String)
    (ho : parse_url url = Except.ok o)
    (hs : o.scheme = "http" ∨ o.scheme = "https")
    (hp : itemPaths o = Except.ok paths) :
    (download url env).1 = RunResult.normal
    ∧ ((download url env).2).filter isRequest = paths.map Event.request
    ∧ ((download url env).2).getLast? = some Event.close := by
  refine ⟨?_, download_filter_request url env o paths ho hs hp, ?_⟩
  · rw [download_eq_flatLoop url env o paths ho hs hp]
  · rw [download_eq_flatLoop url env o paths ho hs hp]
    simp only [← List.cons_append]
    exact List.getLast?_concat _

/-- C3 witness: the run of `http://www.example.com/a[1-2].jpg` whose
first item is truncated still requests both items, exits normally and
closes the connection. -/
theorem c3_witness :
    parse_url wUrl = Except.ok wTarget
    ∧ itemPaths wTarget = Except.ok wPaths
    ∧ (download wUrl wEnv).1 = RunResult.normal
    ∧ ((download wUrl wEnv).2).filter isRequest = wPaths.map Event.request
    ∧ ((download wUrl wEnv).2).getLast? = some Event.close := by
  have h := c3_all_items_processed wUrl wEnv wTarget wPaths
    rfl (Or.inl rfl) rfl
  exact ⟨rfl, rfl, h.1, h.2.1, h.2.2⟩

/-- C4: for every item whose response has status at least 300, the fetch
step returns exactly the progress line, the request, and the reported
status/reason — the body is read and discarded and no file is opened —
the outcome is `FailedStatus` with the status code and reason, the
reconnect flag is false, and in a run the following item's block contains
no reconnect countdown: it is just that item's fetch attempt. -/
theorem c4_failed_status_no_reconnect
    (p f : String) (s : Nat) (r : String) (cl : Option Int)
    (st : StreamOutcome) (h : 300 ≤ s) :
    get_content p f (ItemBehavior.respond s r cl st) =
      (false, [Event.itemStart p f, Event.request p, Event.resultStatus s r])
    ∧ outcomeOf (ItemBehavior.respond s r cl st) = FetchOutcome.failedStatus s r
    ∧ Event.fileOpen f ∉ (get_content p f (ItemBehavior.respond s r cl st)).2
    ∧ (∀ (conn : Conn) (env : Nat → ItemBehavior) (paths : List String)
        (j : Nat), env j = ItemBehavior.respond s r cl st →
        blockAt conn env paths (j + 1) =
          (get_content (paths.getD (j + 1) "")
            (basename (paths.getD (j + 1) "")) (env (j + 1))).2) := by
  have hns : ¬ s < 300 := by omega
  refine ⟨by simp [get_content, hns], by simp [outcomeOf, hns],
    by simp [get_content, hns], ?_⟩
  intro conn env paths j hj
  have hflag : reconnectFlag (env j) = false := by
    rw [hj]
    simp [reconnectFlag, get_content, hns]
  simp [blockAt, hflag]

/-- C4 witness: a 404 response at item 0 of the sample run yields
`FailedStatus 404`, opens no file, and leaves item 1's block without a
countdown. -/
theorem c4_witness :
    300 ≤ 404
    ∧ get_content "/a1.jpg" "a1.jpg"
        (ItemBehavior.respond 404 "Not Found" none (StreamOutcome.complete 0)) =
        (false, [Event.itemStart "/a1.jpg" "a1.jpg", Event.request "/a1.jpg",
          Event.resultStatus 404 "Not Found"])
    ∧ outcomeOf (ItemBehavior.respond 404 "Not Found" none
        (StreamOutcome.complete 0)) = FetchOutcome.failedStatus 404 "Not Found" := by
  have h := c4_failed_status_no_reconnect "/a1.jpg" "a1.jpg" 404 "Not Found"
    none (StreamOutcome.complete 0) (by omega)
  exact ⟨by omega, h.1, h.2.1⟩

/-- C5: for every dash-range token whose first digit literal denotes a
larger value than the second (such as `100-1`), the display width is the
length of the first literal, and enumeration swaps the bounds before
enumerating: it yields the strictly increasing values from the smaller
bound up to the larger bound inclusive, and the enumerated items are
those values rendered with the first literal's width. -/
theorem c5_reversed_range_swapped
    (template : String) (a b : List Char)
    (ha : a ≠ []) (hb : b ≠ [])
    (hda : a.all Char.isDigit = true) (hdb : b.all Char.isDigit = true)
    (hgt : digitsToNat b < digitsToNat a) :
    get_digit ⟨a ++ '-' :: b⟩ = Except.ok a.length
    ∧ parse_range ⟨a ++ '-' :: b⟩ =
        Except.ok (List.range' (digitsToNat b)
          (digitsToNat a - digitsToNat b + 1))
    ∧ (List.range' (digitsToNat b) (digitsToNat a - digitsToNat b + 1)).head?
        = some (digitsToNat b)
    ∧ (List.range' (digitsToNat b) (digitsToNat a - digitsToNat b + 1)).getLast?
        = some (digitsToNat a)
    ∧ List.Pairwise (· < ·)
        (List.range' (digitsToNat b) (digitsToNat a - digitsToNat b + 1))
    ∧ tokenItems template ⟨a ++ '-' :: b⟩ =
        Except.ok
          ((List.range' (digitsToNat b) (digitsToNat a - digitsToNat b + 1)).map
            (render template a.length)) := by
  have hdata : (⟨a ++ '-' :: b⟩ : String).data = a ++ '-' :: b := rfl
  have hmr := matchDashRange_eq a b ha hb hda hdb
  have h1 : get_digit ⟨a ++ '-' :: b⟩ = Except.ok a.length := by
    simp [get_digit, hdata, hmr]
  have harith : digitsToNat a + 1 - digitsToNat b
      = digitsToNat a - digitsToNat b + 1 := by omega
  have h2 : parse_range ⟨a ++ '-' :: b⟩ =
      Except.ok (List.range' (digitsToNat b)
        (digitsToNat a - digitsToNat b + 1)) := by
    simp only [parse_range, hdata, hmr]
    rw [if_pos hgt, if_pos hgt, harith]
  refine ⟨h1, h2, range'_head _ _, ?_, List.pairwise_lt_range' _ _, ?_⟩
  · rw [range'_getLast]
    congr 1
    omega
  · simp [tokenItems, h1, h2]

/-- C5 witness: the token `100-1` has width 3 and enumerates `1..100`
ascending. -/
theorem c5_witness :
    digitsToNat ['1'] < digitsToNat ['1', '0', '0']
    ∧ get_digit ⟨['1', '0', '0'] ++ '-' :: ['1']⟩ = Except.ok 3
    ∧ parse_range ⟨['1', '0', '0'] ++ '-' :: ['1']⟩ =
        Except.ok (List.range' (digitsToNat ['1'])
          (digitsToNat ['1', '0', '0'] - digitsToNat ['1'] + 1)) := by
  have h := c5_reversed_range_swapped "/[*].jpg" ['1', '0', '0'] ['1']
    (by decide) (by decide) (by decide) (by decide) (by decide)
  exact ⟨by decide, h.1, h.2.1⟩

/-- C6: every emitted string is the decimal representation left-padded
with zeros to at least the token's digit width: its length is the maximum
of the width and the natural length, it is zeros followed by the full
decimal representation (never truncated), and when the natural
representation is already at least the width no padding is added; the
token `0001-0025` has digit width 4 and enumerates exactly 25 width-4
strings from `0001` to `0025`. -/
theorem c6_padding
    (d i : Nat) :
    (pad d i).length = max d (Nat.repr i).length
    ∧ (pad d i).data =
        List.replicate ((pad d i).length - (Nat.repr i).length) '0'
          ++ (Nat.repr i).data
    ∧ (Nat.repr i).data <:+ (pad d i).data
    ∧ (d ≤ (Nat.repr i).length → pad d i = Nat.repr i)
    ∧ get_digit "0001-0025" = Except.ok 4
    ∧ parse_range "0001-0025" = Except.ok (List.range' 1 25)
    ∧ ((List.range' 1 25).map (pad 4)).length = 25
    ∧ (∀ s ∈ (List.range' 1 25).map (pad 4), s.length = 4)
    ∧ ((List.range' 1 25).map (pad 4)).head? = some "0001"
    ∧ ((List.range' 1 25).map (pad 4)).getLast? = some "0025" := by
  refine ⟨pad_length d i, pad_data d i, repr_suffix_pad d i,
    pad_eq_of_le d i, rfl, rfl, by decide, by decide, by decide, by decide⟩

/-- C6 witness: for width 3 and value 12345 the natural representation is
already longer than the width, so no padding is added and nothing is
truncated. -/
theorem c6_witness :
    3 ≤ (Nat.repr 12345).length ∧ pad 3 12345 = Nat.repr 12345 :=
  ⟨by decide, (c6_padding 3 12345).2.2.2.1 (by decide)⟩

/-- C7 counterexample: the URL `http://www.example.com/a[*]b[1-2].jpg`
contains a bracketed digits expression, yet the parser's path template
`/a[*]b[*].jpg` contains two substitution markers, not exactly one: the
literal `[*]` already present in the path is indistinguishable from the
inserted marker (and the later `str.replace` substitutes both). -/
theorem c7_counterexample :
    parse_url "http://www.example.com/a[*]b[1-2].jpg"
      = Except.ok ⟨"http", "www.example.com", 0, "/a[*]b[*].jpg", ["1-2"]⟩
    ∧ countMarker ("/a[*]b[*].jpg").data = 2
    ∧ countMarker ("/a[*]b[*].jpg").data ≠ 1 := by
  exact ⟨rfl, by decide, by decide⟩

/-- C7 (amended): for every URL whose path contains a bracketed
digits/commas/hyphens expression and no occurrence of the literal marker
string `[*]`, the parser replaces the first bracketed region with the
marker — so the path template contains exactly one marker — and the
range tokens are the comma-separated pieces of the bracket's contents,
stripped, with empty pieces dropped, in their original left-to-right
order (an order-preserving sublist of the split pieces, none empty). -/
theorem c7_one_marker_ordered_tokens
    (url : String) (o : ParsedTarget)
    (ho : parse_url url = Except.ok o)
    (hnm : countMarker (urlPath url).data = 0) :
    countMarker o.path.data = 1
    ∧ ∃ pre inner suf,
        (urlPath url).data = pre ++ '[' :: inner ++ ']' :: suf
        ∧ inner ≠ []
        ∧ inner.all isRangeChar = true
        ∧ o.path.data = pre ++ '[' :: '*' :: ']' :: suf
        ∧ (o.ranges.map String.data).Sublist ((pySplit ',' inner).map pyStrip)
        ∧ (∀ t ∈ o.ranges, t.data ≠ []) := by
  obtain ⟨pre, inner, suf, hfb, hpath, hranges⟩ := parse_url_ok_inv url o ho
  obtain ⟨hdec, hne, hall⟩ := findBracket_sound _ pre inner suf hfb
  have hpre : ¬ hasMarker pre := by
    intro hM
    have hp : hasMarker (urlPath url).data := by
      rw [hdec]
      exact hasMarker_append_left _ (']' :: suf)
        (hasMarker_append_left pre ('[' :: inner) hM)
    have := countMarker_pos_of_hasMarker _ hp
    omega
  have hsuf : ¬ hasMarker suf := by
    rintro ⟨s, t, hst⟩
    have hp : hasMarker (urlPath url).data := by
      refine ⟨pre ++ '[' :: inner ++ ']' :: s, t, ?_⟩
      rw [hdec, hst]
      simp
    have := countMarker_pos_of_hasMarker _ hp
    omega
  have hdata : o.path.data = pre ++ '[' :: '*' :: ']' :: suf := by
    rw [hpath]
  refine ⟨?_, pre, inner, suf, hdec, hne, hall, hdata, ?_, ?_⟩
  · rw [hdata]
    exact countMarker_one pre suf hpre hsuf
  · rw [hranges]
    have hmm : ((((pySplit ',' inner).map pyStrip).filter
        (fun t => !t.isEmpty)).map (fun t => (⟨t⟩ : String))).map String.data
        = ((pySplit ',' inner).map pyStrip).filter (fun t => !t.isEmpty) := by
      rw [List.map_map]
      have hid : (String.data ∘ fun t => (⟨t⟩ : String)) = id := by
        funext t
        rfl
      rw [hid, List.map_id]
    rw [hmm]
    exact List.filter_sublist _
  · intro t ht
    rw [hranges] at ht
    simp only [List.mem_map, List.mem_filter] at ht
    obtain ⟨u, ⟨hu1, hu2⟩, hu3⟩ := ht
    rw [← hu3]
    simpa using hu2

/-- C7 witness: the marker-free URL `http://www.example.com/a[1-2].jpg`
parses to a template with exactly one marker. -/
theorem c7_witness :
    parse_url wUrl = Except.ok wTarget
    ∧ countMarker (urlPath wUrl).data = 0
    ∧ countMarker wTarget.path.data = 1 := by
  exact ⟨rfl, by decide,
    (c7_one_marker_ordered_tokens wUrl wTarget rfl (by decide)).1⟩

/-- C8 counterexample: for the URL `http://www.example.com/[].jpg`, whose
bracket expression is present but empty, the parser does not succeed with
zero tokens: the bracket regex requires at least one inner character, so
parsing fails with `NoRangeSpecified`. -/
theorem c8_counterexample :
    parse_url "http://www.example.com/[].jpg"
      = Except.error "The range is not specified." := by
  rfl

/-- C8 (amended): an empty bracket `[]` is not recognised as a range
expression at all — `parse_url` fails pre-flight with `NoRangeSpecified`
rather than succeeding with an empty token list; a bracket whose
comma-separated tokens are all empty after trimming (such as `[,]`) does
parse and yields an empty `rangeTokens` list (an empty run). -/
theorem c8_empty_bracket_not_recognised :
    parse_url "http://www.example.com/[].jpg"
      = Except.error "The range is not specified."
    ∧ parse_url "http://www.example.com/[,].jpg"
      = Except.ok ⟨"http", "www.example.com", 0, "/[*].jpg", []⟩
    ∧ (⟨"http", "www.example.com", 0, "/[*].jpg", []⟩ : ParsedTarget).ranges
        = [] := by
  exact ⟨rfl, rfl, rfl⟩

/-- C9 counterexample: the countdown of the default 180-unit reconnect
interval does not consist of exactly 180 ticks: `range(interval, -1, -1)`
iterates once per value from 180 down to 0, which is 181 ticks (each a
printed remaining time followed by a one-second sleep). -/
theorem c9_counterexample :
    ¬ (((do_reconnecting ⟨"http", "www.example.com", 80, 300⟩ 180).filter
        isTick).length = 180) := by
  decide

/-- C9 (amended): the reconnect procedure performs `interval + 1` ticks
(not `interval`; 181 by default), displaying the remaining time counting
down from `interval` to 0 inclusive, and only after the last tick
re-establishes the connection; within a run every reconnection is made on
the very connection object created at startup, hence to the same scheme,
host, port and timeout as initially configured. -/
theorem c9_countdown_then_reconnect
    (c : Conn) (n : Nat) :
    do_reconnecting c n = (descList n).map Event.tick ++ [Event.reconnected c]
    ∧ ((do_reconnecting c n).filter isTick).length = n + 1
    ∧ (do_reconnecting c n).getLast? = some (Event.reconnected c)
    ∧ (∀ (url : String) (env : Nat → ItemBehavior) (o : ParsedTarget)
        (paths : List String) (c' : Conn),
        parse_url url = Except.ok o →
        (o.scheme = "http" ∨ o.scheme = "https") →
        itemPaths o = Except.ok paths →
        Event.reconnected c' ∈ (download url env).2 → c' = connOf o) := by
  refine ⟨do_reconnecting_eq_descList c n, do_reconnecting_tick_count c n,
    ?_, ?_⟩
  · rw [do_reconnecting_eq_descList]
    exact List.getLast?_concat _
  · intro url env o paths c' ho hs hp hmem
    exact download_reconnected_conn url env o paths c' ho hs hp hmem

/-- C9 witness: the default countdown has 181 ticks; in the sample run
with a truncated first item, the reconnection before item 1 is made on
the startup connection of `www.example.com`. -/
theorem c9_witness :
    ((do_reconnecting ⟨"http", "www.example.com", 80, 300⟩ 180).filter
      isTick).length = 181
    ∧ Event.reconnected ⟨"http", "www.example.com", 80, 300⟩
        ∈ (download wUrl wEnv).2
    ∧ (⟨"http", "www.example.com", 80, 300⟩ : Conn) = connOf wTarget := by
  refine ⟨(c9_countdown_then_reconnect
      ⟨"http", "www.example.com", 80, 300⟩ 180).2.1, by decide, ?_⟩
  exact (c9_countdown_then_reconnect ⟨"http", "www.example.com", 80, 300⟩
      180).2.2.2 wUrl wEnv wTarget wPaths _ rfl (Or.inl rfl) rfl (by decide)

/-- C10: for every item attempt, the destination file is opened (created
or truncated for writing) exactly when the response has status below 300
and a readable `Content-Length` header; consequently on a status of 300
or more, on a connection error during the request, or on a
missing/unparsable `Content-Length`, no file-open happens for that item;
and the only file an attempt ever opens is its own destination file. -/
theorem c10_file_open_iff_ok_status
    (p f : String) (b : ItemBehavior) :
    (Event.fileOpen f ∈ (get_content p f b).2 ↔
      ∃ s r n st, b = ItemBehavior.respond s r (some n) st ∧ s < 300)
    ∧ (∀ f', Event.fileOpen f' ∈ (get_content p f b).2 → f' = f) := by
  exact ⟨get_content_fileOpen_iff p f b,
    fun f' h => get_content_fileOpen_name p f f' b h⟩

/-- C10 witness: a 200 response with a declared length opens the file; a
404 response with a missing length opens none. -/
theorem c10_witness :
    Event.fileOpen "a1.jpg" ∈ (get_content "/a1.jpg" "a1.jpg"
      (ItemBehavior.respond 200 "OK" (some 10) (StreamOutcome.complete 10))).2
    ∧ Event.fileOpen "a1.jpg" ∉ (get_content "/a1.jpg" "a1.jpg"
      (ItemBehavior.respond 404 "Not Found" none (StreamOutcome.complete 0))).2 := by
  constructor
  · exact (c10_file_open_iff_ok_status "/a1.jpg" "a1.jpg" _).1.mpr
      ⟨200, "OK", 10, StreamOutcome.complete 10, rfl, by omega⟩
  · intro hmem
    obtain ⟨s, r, n, st, heq, hlt⟩ :=
      (c10_file_open_iff_ok_status "/a1.jpg" "a1.jpg" _).1.mp hmem
    simp at heq

end Claims

end Sndl
